import Mathlib

/-!
Verification of the package-repository resolution and content-set generation
subsystem of the cekit build tool, against its natural-language specification.

Shallow embedding of:
  * `cekit/descriptor/packages.py` — the `Packages` and `Repository` entities
    (construction, validation, mutators, `fetch` precondition guard);
  * `cekit/generator/docker.py` — the `DockerGenerator` content-set
    preparation (`_prepare_content_sets`) and artifact preparation
    (`prepare_artifacts`).

Python dictionaries are modelled as association lists over `String` keys and
a `Val` value type mirroring the YAML/JSON-ish values the code manipulates.
Python exceptions are modelled by `Except PyErr`.  External collaborators
(the generic descriptor base class and its schema validation, the YAML
parser, the filesystem, the ODCS broker subprocess, the artifact copy
primitive) are modelled as parameters, as the spec declares them out of
scope.
-/

/-- Single-quote character (ASCII 39), used when building the exact
error-message strings of the source. -/
def sqS : String := String.singleton (Char.ofNat 39)

/-- Single-quote as a character, for character-list level string work. -/
def qc : Char := Char.ofNat 39

/-- Double-quote as a character. -/
def dqc : Char := Char.ofNat 34

/-- Python-ish runtime values: the subset of YAML/JSON values the embedded
code stores in its descriptor dictionaries (`None`, strings, booleans,
integers, lists, string-keyed dictionaries). -/
inductive Val where
  | none
  | str (s : String)
  | b (value : Bool)
  | i (n : Int)
  | list (xs : List Val)
  | dict (entries : List (String × Val))

/-- Python dictionaries with string keys, as association lists. -/
abbrev Dict := List (String × Val)

/-- Python exceptions relevant to the embedded code: the domain error
`CekitError` (carrying its message), `KeyError` (carrying the missing key),
`TypeError` and `AttributeError`. -/
inductive PyErr where
  | cekit (msg : String)
  | keyError (k : String)
  | typeError
  | attrError

/-- Dictionary lookup: `d[k]` / `d.get(k)`. -/
def lookupD (k : String) : Dict → Option Val
  | [] => Option.none
  | (k2, v) :: rest => if k2 = k then some v else lookupD k rest

/-- Key-presence test: `k in d`. -/
def containsD (k : String) (d : Dict) : Bool :=
  (lookupD k d).isSome

/-- Key removal: `d.pop(k, None)` / `del d[k]` (ignoring the returned value). -/
def eraseKey (k : String) : Dict → Dict
  | [] => []
  | (k2, v) :: rest => if k2 = k then eraseKey k rest else (k2, v) :: eraseKey k rest

/-- Dictionary assignment `d[k] = v`.  Python keeps one binding per key; the
binding position is irrelevant to the embedded code (it only ever observes
lookups), so the normalized erase-then-append form is used. -/
def insertD (k : String) (v : Val) (d : Dict) : Dict :=
  eraseKey k d ++ [(k, v)]

theorem lookupD_eraseKey_self (k : String) (d : Dict) :
    lookupD k (eraseKey k d) = Option.none := by
  induction d with
  | nil => rfl
  | cons p rest ih =>
    obtain ⟨k2, v⟩ := p
    by_cases h : k2 = k
    · simp [eraseKey, h, ih]
    · simp [eraseKey, h, lookupD, ih]

theorem lookupD_eraseKey_ne {k k2 : String} (h : k ≠ k2) (d : Dict) :
    lookupD k (eraseKey k2 d) = lookupD k d := by
  induction d with
  | nil => rfl
  | cons p rest ih =>
    obtain ⟨k3, v⟩ := p
    have hne : ¬(k2 = k) := fun hh => h hh.symm
    by_cases h3 : k3 = k2
    · subst h3
      simp [eraseKey, lookupD, hne, ih]
    · by_cases hk : k3 = k
      · subst hk
        simp [eraseKey, lookupD, h3]
      · simp [eraseKey, h3, lookupD, hk, ih]

theorem lookupD_append (k : String) (d1 d2 : Dict) :
    lookupD k (d1 ++ d2) = ((lookupD k d1).or (lookupD k d2)) := by
  induction d1 with
  | nil => simp [lookupD]
  | cons p rest ih =>
    obtain ⟨k2, v⟩ := p
    by_cases h : k2 = k
    · simp [lookupD, h]
    · simp [lookupD, h, ih]

theorem lookupD_insertD_self (k : String) (v : Val) (d : Dict) :
    lookupD k (insertD k v d) = some v := by
  simp [insertD, lookupD_append, lookupD_eraseKey_self, lookupD]

theorem lookupD_insertD_ne {k k2 : String} (h : k ≠ k2) (v : Val) (d : Dict) :
    lookupD k (insertD k2 v d) = lookupD k d := by
  have hk2 : k2 ≠ k := fun hh => h hh.symm
  simp [insertD, lookupD_append, lookupD_eraseKey_ne h, lookupD, hk2]

/-- Python `"%s" % v` string rendering for the value shapes that reach the
embedded message-building code (scalars; container rendering is abbreviated
as it is never exercised by the embedded call sites or the claims). -/
def formatVal : Val → String
  | Val.none => "None"
  | Val.str s => s
  | Val.b true => "True"
  | Val.b false => "False"
  | Val.i n => toString n
  | Val.list _ => "[...]"
  | Val.dict _ => "\x7b...\x7d"

/-- Python truthiness (`not x` tests): `None`, `""`, `False`, `0`, `[]` and
`{}` are falsy. -/
def falsy : Val → Bool
  | Val.none => true
  | Val.str s => s.isEmpty
  | Val.b value => !value
  | Val.i n => n == 0
  | Val.list xs => xs.isEmpty
  | Val.dict entries => entries.isEmpty

/-- Modelled from the spec: `os.path.join` for a directory and a relative
path (the `content_sets_file` path is "resolved relative to the descriptor
directory"); the absolute-path override of `os.path.join` is not modelled. -/
def joinPath (dir p : String) : String :=
  if dir.isEmpty then p else dir ++ "/" ++ p

/-- Prefix test on character lists (`startsWithL p s` iff `p` is a prefix
of `s`), used to locate pattern occurrences the way Python `str.replace`
does. -/
def startsWithL : List Char → List Char → Bool
  | [], _ => true
  | _ :: _, [] => false
  | p :: ps, c :: cs => p == c && startsWithL ps cs

/-- Fuel-indexed worker for Python `str.replace`: scan left to right; at
each position, when the (non-empty) pattern is a prefix, emit the
replacement and skip the pattern; otherwise emit one character and advance.
The fuel is only a structural-termination device; `replaceGo old new
s.length s` is the function of interest. -/
def replaceGo (old new : List Char) : Nat → List Char → List Char
  | _, [] => []
  | 0, s => s
  | fuel+1, c :: cs =>
    if !old.isEmpty && startsWithL old (c :: cs) then
      new ++ replaceGo old new fuel (List.drop (old.length - 1) cs)
    else
      c :: replaceGo old new fuel cs

/-- Python `s.replace(old, new)` on character lists (for non-empty `old`):
all non-overlapping occurrences, leftmost first. -/
def replaceL (old new s : List Char) : List Char :=
  replaceGo old new s.length s

/-- Python `s.split(sep)` for a one-character separator, on character
lists: `splitOnChar c [] = [[]]`, and every occurrence of `c` starts a new
piece. -/
def splitOnChar (sep : Char) : List Char → List (List Char)
  | [] => [[]]
  | c :: cs =>
    if c == sep then [] :: splitOnChar sep cs
    else
      match splitOnChar sep cs with
      | [] => [[c]]
      | l :: ls => (c :: l) :: ls

/-- Python `sep.join(pieces)` for a one-character separator, on character
lists. -/
def joinSep (sep : Char) : List (List Char) → List Char
  | [] => []
  | [l] => l
  | l :: l2 :: ls => l ++ sep :: joinSep sep (l2 :: ls)


/-- Python `s.replace(old, new)` on `String`, via the character-list
embedding (kept evaluable; Lean’s own `String.replace` has the same
semantics for these patterns but does not reduce in the kernel). -/
def pyReplace (s old new : String) : String :=
  String.mk (replaceL old.toList new.toList s.toList)

/-- packages.py line 111: default repository file name,
`'%s.repo' % descriptor['name'].replace(' ', '_')`. -/
def deriveFilename (n : String) : String :=
  pyReplace n " " "_" ++ ".repo"

/-- packages.py lines 117-119: the exact `CekitError` message for a
repository violating the source-kind validation, naming the repository. -/
def invalidRepoMsg (nameVal : Val) : String :=
  "Repository " ++ sqS ++ formatVal nameVal ++ sqS ++
    " is invalid, you can use only one of [" ++
    sqS ++ "id" ++ sqS ++ ", " ++ sqS ++ "odcs" ++ sqS ++ ", " ++
    sqS ++ "rpm" ++ sqS ++ ", " ++ sqS ++ "url" ++ sqS ++ "]"

/-- packages.py `Repository.__init__`, lines 104-134, for a mapping (dict)
input.  Steps, in source order: default `filename` from `name` when absent
(line 110-111); the source-kind check, a chained boolean XOR over the
presence of `url`, `odcs`, `id`, `rpm` (lines 113-119); default `url` to an
empty mapping when absent (lines 121-122); schema validation by the generic
descriptor base class (line 126, an external collaborator, modelled as
accepting); default `present` to `True` when absent (lines 133-134).  The
`skip_merging` marker (lines 129-131) touches no descriptor state and has no
bearing on any claim, so it is not represented. -/
def repositoryInit (d : Dict) : Except PyErr Dict :=
  match (if containsD "filename" d then Except.ok d
         else match lookupD "name" d with
           | some (Val.str n) =>
               Except.ok (insertD "filename" (Val.str (deriveFilename n)) d)
           | some _ => Except.error PyErr.attrError
           | Option.none => Except.error (PyErr.keyError "name")) with
  | Except.error e => Except.error e
  | Except.ok d1 =>
    if !(Bool.xor (Bool.xor (Bool.xor (containsD "url" d1) (containsD "odcs" d1))
          (containsD "id" d1)) (containsD "rpm" d1)) then
      match lookupD "name" d1 with
      | some nameVal => Except.error (PyErr.cekit (invalidRepoMsg nameVal))
      | Option.none => Except.error (PyErr.keyError "name")
    else
      let d2 := if containsD "url" d1 then d1
                else insertD "url" (Val.dict []) d1
      let d3 := if containsD "present" d2 then d2
                else insertD "present" (Val.b true) d2
      Except.ok d3

/-- packages.py lines 136-144, `_create_repo_object`: convert a legacy
bare-name repository reference into a mapping, resolving the URL in the
externally configured repositories table (`_get_repo_url`, lines 146-169;
failed lookup resolves to `None` with only a warning). -/
def createRepoObject (cfgRepos : Dict) (repoName : String) : Dict :=
  let urlVal := match lookupD repoName cfgRepos with
    | some v => v
    | Option.none => Val.none
  [("name", Val.str repoName), ("url", Val.dict [("repository", urlVal)])]

/-- packages.py lines 207-213: the `id` setter assigns `id` and pops
`url`, `rpm`, `odcs` and `filename`. -/
def setId (v : Val) (d : Dict) : Dict :=
  eraseKey "filename" (eraseKey "odcs" (eraseKey "rpm" (eraseKey "url"
    (insertD "id" v d))))

/-- packages.py lines 219-225: the `url` setter assigns `url` and pops
`id`, `rpm`, `odcs` and `filename`. -/
def setUrl (v : Val) (d : Dict) : Dict :=
  eraseKey "filename" (eraseKey "odcs" (eraseKey "rpm" (eraseKey "id"
    (insertD "url" v d))))

/-- packages.py lines 231-237: the `rpm` setter assigns `rpm` and pops
`id`, `url`, `odcs` and `filename`. -/
def setRpm (v : Val) (d : Dict) : Dict :=
  eraseKey "filename" (eraseKey "odcs" (eraseKey "url" (eraseKey "id"
    (insertD "rpm" v d))))

/-- packages.py lines 243-249: the `odcs` setter assigns `odcs` and pops
`id`, `url`, `rpm` and `filename`. -/
def setOdcs (v : Val) (d : Dict) : Dict :=
  eraseKey "filename" (eraseKey "rpm" (eraseKey "url" (eraseKey "id"
    (insertD "odcs" v d))))

/-- packages.py lines 255-261: the `filename` setter assigns `filename` and
pops all four source-kind keys `id`, `url`, `rpm`, `odcs`. -/
def setFilename (v : Val) (d : Dict) : Dict :=
  eraseKey "odcs" (eraseKey "rpm" (eraseKey "url" (eraseKey "id"
    (insertD "filename" v d))))

/-- The effect `Repository.fetch` delegates to its collaborators on success:
create the target directory, then copy `url.repository` to
`target_dir/filename` (packages.py lines 174-177). -/
structure FetchOp where
  mkdirTarget : String
  srcUrl : Val
  dest : String

/-- packages.py lines 171-177, `Repository.fetch`.  The guard on line 172
subscripts `self._descriptor['url']['repository']` — each subscript raises
`KeyError` when the key is absent — and only then tests truthiness, raising
the `CekitError` that names the repository (line 173).  `self.name` is the
property `self.get('name')`, which yields `None` when absent. -/
def fetchR (d : Dict) (targetDir : String) : Except PyErr FetchOp :=
  match lookupD "url" d with
  | Option.none => Except.error (PyErr.keyError "url")
  | some (Val.dict um) =>
    match lookupD "repository" um with
    | Option.none => Except.error (PyErr.keyError "repository")
    | some r =>
      if falsy r then
        Except.error (PyErr.cekit ("Repository not defined for " ++ sqS ++
          formatVal ((lookupD "name" d).getD Val.none) ++ sqS ++ "."))
      else
        match lookupD "filename" d with
        | some (Val.str fn) => Except.ok ⟨targetDir, r, joinPath targetDir fn⟩
        | some _ => Except.error PyErr.typeError
        | Option.none => Except.error (PyErr.keyError "filename")
  | some _ => Except.error PyErr.typeError

/-- packages.py lines 67-69, `Packages._prepare`: convert every entry of
`descriptor.get('repositories', [])` through the `Repository` constructor.
A mapping entry goes through `repositoryInit` directly; a bare-string entry
is first adapted by `_create_repo_object` against the externally configured
repositories table.  Any other entry shape fails inside the constructor
(modelled as `TypeError`). -/
def initRepos (cfgRepos : Dict) : List Val → Except PyErr (List Val)
  | [] => Except.ok []
  | x :: rest =>
    match (match x with
           | Val.dict rd => repositoryInit rd
           | Val.str s => repositoryInit (createRepoObject cfgRepos s)
           | _ => Except.error PyErr.typeError) with
    | Except.error e => Except.error e
    | Except.ok r =>
      match initRepos cfgRepos rest with
      | Except.error e => Except.error e
      | Except.ok rs => Except.ok (Val.dict r :: rs)

/-- packages.py lines 67-69: `self._descriptor['repositories'] =
[Repository(x) for x in self._descriptor.get('repositories', [])]` — always
reassigns `repositories` (to `[]` when the key was absent). -/
def prepareField (cfgRepos : Dict) (d : Dict) : Except PyErr Dict :=
  match lookupD "repositories" d with
  | Option.none => Except.ok (insertD "repositories" (Val.list []) d)
  | some (Val.list xs) =>
    match initRepos cfgRepos xs with
    | Except.error e => Except.error e
    | Except.ok rs => Except.ok (insertD "repositories" (Val.list rs) d)
  | some _ => Except.error PyErr.typeError

/-- packages.py `Packages.__init__`, lines 48-65.  In source order: schema
validation by the generic descriptor base class (line 51, an external
collaborator, modelled as accepting); the mutual-exclusion check of
`content_sets_file` and `content_sets` (lines 52-53); the
`content_sets_file` resolution relative to the descriptor directory with an
existence check, YAML load into `content_sets`, and deletion of the
`content_sets_file` key (lines 55-63); repository conversion (line 65 via
`_prepare`).  The filesystem plus YAML parse is modelled as
`fs : String → Option Val` giving each existing path its parsed contents. -/
def packagesInit (cfgRepos : Dict) (descriptorPath : String)
    (fs : String → Option Val) (d : Dict) : Except PyErr Dict :=
  if containsD "content_sets_file" d && containsD "content_sets" d then
    Except.error (PyErr.cekit
      "You cannot specify content_sets and content_sets_file together!")
  else
    match lookupD "content_sets_file" d with
    | Option.none => prepareField cfgRepos d
    | some (Val.str p) =>
      let path := joinPath descriptorPath p
      match fs path with
      | Option.none =>
        Except.error (PyErr.cekit (sqS ++ path ++ sqS ++ " file not found!"))
      | some content =>
        prepareField cfgRepos
          (eraseKey "content_sets_file" (insertD "content_sets" content d))
    | some _ => Except.error PyErr.typeError

/-- docker.py lines 90-103, `prepare_artifacts` loop body: invoke
`artifact.copy(target_dir)` for each artifact in order, stopping at the
first raised error.  The second component records which artifacts had their
`copy` collaborator invoked, in order. -/
def prepareArtifactsGo {A E : Type} (copy : A → Except E Unit) :
    List A → Except E Unit × List A
  | [] => (Except.ok (), [])
  | a :: rest =>
    match copy a with
    | Except.ok _ =>
      let p := prepareArtifactsGo copy rest
      (p.1, a :: p.2)
    | Except.error e => (Except.error e, [a])

/-- docker.py lines 90-103, `prepare_artifacts`: with no declared artifacts,
log and return before touching the filesystem (lines 94-96); otherwise copy
each artifact of `image.all_artifacts` into the build-context `image`
subdirectory, sequentially and in declaration order (lines 101-102).  The
trace component lists the `copy` invocations actually performed. -/
def prepareArtifacts {A E : Type} (copy : A → Except E Unit)
    (artifacts : List A) : Except E Unit × List A :=
  match artifacts with
  | [] => (Except.ok (), [])
  | _ => prepareArtifactsGo copy artifacts

/-- The pattern `" u'"` (space, `u`, single quote) of docker.py line 64. -/
def patSpaceUQ : List Char := [' ', 'u', qc]

/-- The replacement `" '"` (space, single quote) of docker.py line 64. -/
def repSpaceQ : List Char := [' ', qc]

/-- The pattern `" u\x22"` (space, `u`, double quote) of docker.py line 65. -/
def patSpaceUDQ : List Char := [' ', 'u', dqc]

/-- The replacement `" \x22"` (space, double quote) of docker.py line 65. -/
def repSpaceDQ : List Char := [' ', dqc]

/-- docker.py lines 64-66: normalization of the broker stdout before the
YAML parse — `output.replace(" u'", " '").replace(' u"', ' "')`, then
`.split('\n')[1:]` joined back with `'\n'`. -/
def normalizeOdcsOutput (s : List Char) : List Char :=
  joinSep '\n' (List.drop 1 (splitOnChar '\n'
    (replaceL patSpaceUDQ repSpaceDQ (replaceL patSpaceUQ repSpaceQ s))))

/-- The normalization as claim C2 words it: discard the first line of the
output, then replace every occurrence of `u'` with `'` and `u\x22` with
`\x22`. -/
def claimNormalizeC2 (s : List Char) : List Char :=
  replaceL ['u', dqc] [dqc] (replaceL ['u', qc] [qc]
    (joinSep '\n' (List.drop 1 (splitOnChar '\n' s))))

/-- Python `v != 2` for the parsed `state` field (negated): integer
comparison, with the Python booleans equal to 0/1 and every non-numeric
value unequal to 2. -/
def pyEqInt (v : Val) (n : Int) : Bool :=
  match v with
  | Val.i m => m == n
  | Val.b true => n == 1
  | Val.b false => n == 0
  | _ => false

/-- docker.py lines 70-75 together with the `except` chain of lines 77-84,
applied to the parsed broker result: a missing field or a non-mapping
result raises inside the `try` and is wrapped by the generic handler into
`CekitError('Cannot create content set!')`; a `state` different from 2
raises `CekitError("Cannot create content set: '%s'" % state_reason)`
(passed through unchanged by the `except CekitError` arm); `state == 2`
returns the `result_repofile` value. -/
def odcsResultToRepoUrl (v : Val) : Except PyErr Val :=
  match v with
  | Val.dict m =>
    match lookupD "state" m with
    | Option.none => Except.error (PyErr.cekit "Cannot create content set!")
    | some st =>
      if !pyEqInt st 2 then
        match lookupD "state_reason" m with
        | Option.none => Except.error (PyErr.cekit "Cannot create content set!")
        | some sr =>
          Except.error (PyErr.cekit
            ("Cannot create content set: " ++ sqS ++ formatVal sr ++ sqS))
      else
        match lookupD "result_repofile" m with
        | Option.none => Except.error (PyErr.cekit "Cannot create content set!")
        | some rf => Except.ok rf
  | _ => Except.error (PyErr.cekit "Cannot create content set!")

/-- Outcome of the external `odcs` subprocess invocation
(`subprocess.check_output`): captured stdout, or the `OSError` /
`CalledProcessError` failure modes handled on docker.py lines 79-82. -/
inductive BrokerOut where
  | ok (output : List Char)
  | osError
  | calledProcessError (output : String)

/-- Association lookup in the `content_sets` mapping
(architecture → list of content-set names). -/
def lookupCS (k : String) : List (String × List String) → Option (List String)
  | [] => Option.none
  | (k2, v) :: rest => if k2 = k then some v else lookupCS k rest

/-- docker.py lines 43-84, `_prepare_content_sets`.  Parameters model the
collaborators: `cfgRedhat` is `config.cfg['common']['redhat']`,
`paramsRedhat` is `self._params.get('redhat', False)`, `arch` is
`platform.machine()`, `broker` is the `odcs` subprocess, and `parse` is
`yaml.safe_load` (its failure is wrapped by the generic `except` arm).
Returns the Python return value (`False` when the component does not
apply, otherwise the `result_repofile` value) or the raised error, paired
with the trace of broker invocations (each the argument list of one
`subprocess.check_output` call). -/
def prepareContentSets (cfgRedhat paramsRedhat : Bool) (arch : String)
    (cs : List (String × List String)) (broker : List String → BrokerOut)
    (parse : List Char → Except Unit Val) :
    Except PyErr Val × List (List String) :=
  if !cfgRedhat then (Except.ok (Val.b false), [])
  else
    match lookupCS arch cs with
    | Option.none =>
      (Except.error (PyErr.cekit ("There are no contet_sets defined for platform "
        ++ sqS ++ "%s" ++ sqS ++ "!")), [])
    | some names =>
      let repos := String.intercalate " " names
      let cmd := ["odcs"] ++ (if paramsRedhat then ["--redhat"] else [])
                 ++ ["create", "pulp", repos]
      match broker cmd with
      | BrokerOut.osError =>
        (Except.error (PyErr.cekit ("ODCS is not installed, please install "
          ++ sqS ++ "odcs-client" ++ sqS ++ " package")), [cmd])
      | BrokerOut.calledProcessError out =>
        (Except.error (PyErr.cekit ("Cannot create content set: "
          ++ sqS ++ out ++ sqS)), [cmd])
      | BrokerOut.ok output =>
        match parse (normalizeOdcsOutput output) with
        | Except.error _ =>
          (Except.error (PyErr.cekit "Cannot create content set!"), [cmd])
        | Except.ok v => (odcsResultToRepoUrl v, [cmd])

theorem replaceGo_nil (old new : List Char) (fuel : Nat) :
    replaceGo old new fuel [] = [] := by
  cases fuel <;> rfl

theorem replaceGo_fuel_eq (old new : List Char) :
    ∀ (fuel1 fuel2 : Nat) (s : List Char), s.length ≤ fuel1 →
      s.length ≤ fuel2 → replaceGo old new fuel1 s = replaceGo old new fuel2 s := by
  intro fuel1
  induction fuel1 with
  | zero =>
    intro fuel2 s h1 _
    have hs : s = [] := List.eq_nil_of_length_eq_zero (Nat.le_zero.mp h1)
    subst hs
    rw [replaceGo_nil, replaceGo_nil]
  | succ f1 ih =>
    intro fuel2 s h1 h2
    cases s with
    | nil => rw [replaceGo_nil, replaceGo_nil]
    | cons c cs =>
      cases fuel2 with
      | zero => exact absurd h2 (by simp)
      | succ f2 =>
        have hcs1 : cs.length ≤ f1 := Nat.lt_succ_iff.mp h1
        have hcs2 : cs.length ≤ f2 := Nat.lt_succ_iff.mp h2
        have hdrop : (List.drop (old.length - 1) cs).length ≤ cs.length := by
          rw [List.length_drop]
          exact Nat.sub_le _ _
        show (if !old.isEmpty && startsWithL old (c :: cs) then
                new ++ replaceGo old new f1 (List.drop (old.length - 1) cs)
              else c :: replaceGo old new f1 cs) =
             (if !old.isEmpty && startsWithL old (c :: cs) then
                new ++ replaceGo old new f2 (List.drop (old.length - 1) cs)
              else c :: replaceGo old new f2 cs)
        by_cases h : (!old.isEmpty && startsWithL old (c :: cs)) = true
        · rw [if_pos h, if_pos h,
              ih f2 _ (Nat.le_trans hdrop hcs1) (Nat.le_trans hdrop hcs2)]
        · rw [if_neg h, if_neg h, ih f2 cs hcs1 hcs2]

theorem replaceGo_eq_replaceL (old new : List Char) (fuel : Nat)
    (s : List Char) (h : s.length ≤ fuel) :
    replaceGo old new fuel s = replaceL old new s :=
  replaceGo_fuel_eq old new fuel s.length s h Nat.le.refl

theorem replaceL_nil (old new : List Char) : replaceL old new [] = [] := rfl

theorem replaceL_pos (old new : List Char) (hold : old ≠ []) {c : Char}
    {cs : List Char} (h : startsWithL old (c :: cs) = true) :
    replaceL old new (c :: cs) =
      new ++ replaceL old new (List.drop (old.length - 1) cs) := by
  have hne : (!old.isEmpty) = true := by
    cases old with
    | nil => exact absurd rfl hold
    | cons o os => rfl
  show (if !old.isEmpty && startsWithL old (c :: cs) then
          new ++ replaceGo old new cs.length (List.drop (old.length - 1) cs)
        else c :: replaceGo old new cs.length cs) = _
  rw [if_pos (by rw [hne, h]; rfl)]
  rw [replaceGo_eq_replaceL old new cs.length _
        (by rw [List.length_drop]; exact Nat.sub_le _ _)]

theorem replaceL_neg (old new : List Char) {c : Char} {cs : List Char}
    (h : startsWithL old (c :: cs) = false) :
    replaceL old new (c :: cs) = c :: replaceL old new cs := by
  show (if !old.isEmpty && startsWithL old (c :: cs) then
          new ++ replaceGo old new cs.length (List.drop (old.length - 1) cs)
        else c :: replaceGo old new cs.length cs) = _
  rw [if_neg (by rw [h, Bool.and_false]; exact Bool.false_ne_true)]
  rw [replaceGo_eq_replaceL old new cs.length cs Nat.le.refl]

theorem startsWithL_length {p : List Char} :
    ∀ {s : List Char}, startsWithL p s = true → p.length ≤ s.length := by
  induction p with
  | nil => intro s _; exact Nat.zero_le _
  | cons q qs ih =>
    intro s h
    cases s with
    | nil => exact absurd h (by simp [startsWithL])
    | cons c cs =>
      have h2 := (Bool.and_eq_true _ _).mp h
      exact Nat.succ_le_succ (ih h2.2)

theorem startsWithL_append_le {p : List Char} :
    ∀ {xs : List Char} (r : List Char), p.length ≤ xs.length →
      startsWithL p (xs ++ r) = startsWithL p xs := by
  induction p with
  | nil => intro xs r _; rfl
  | cons q qs ih =>
    intro xs r hlen
    cases xs with
    | nil => exact absurd hlen (by simp)
    | cons c cs =>
      show (q == c && startsWithL qs (cs ++ r)) = (q == c && startsWithL qs cs)
      rw [ih r (Nat.succ_le_succ_iff.mp hlen)]

theorem startsWithL_extends {p xs : List Char} (r : List Char)
    (h : startsWithL p xs = true) : startsWithL p (xs ++ r) = true := by
  rw [startsWithL_append_le r (startsWithL_length h)]
  exact h

theorem startsWithL_sep_mem {sep : Char} :
    ∀ {xs : List Char} {p : List Char} (ys : List Char),
      startsWithL p (xs ++ sep :: ys) = true → xs.length < p.length →
      sep ∈ p := by
  intro xs
  induction xs with
  | nil =>
    intro p ys h hlen
    cases p with
    | nil => exact absurd hlen (by simp)
    | cons q qs =>
      have h2 := (Bool.and_eq_true _ _).mp h
      have : q = sep := eq_of_beq h2.1
      rw [this]
      exact List.mem_cons_self _ _
  | cons x xs2 ih =>
    intro p ys h hlen
    cases p with
    | nil => exact absurd hlen (by simp)
    | cons q qs =>
      have h2 := (Bool.and_eq_true _ _).mp h
      exact List.mem_cons_of_mem _
        (ih ys h2.2 (Nat.succ_lt_succ_iff.mp hlen))

theorem dropAppend {α : Type} :
    ∀ (k : Nat) (xs r : List α), k ≤ xs.length →
      List.drop k (xs ++ r) = List.drop k xs ++ r := by
  intro k
  induction k with
  | zero => intro xs r _; rfl
  | succ k2 ih =>
    intro xs r hk
    cases xs with
    | nil => exact absurd hk (by simp)
    | cons x xs2 =>
      show List.drop k2 (xs2 ++ r) = List.drop k2 xs2 ++ r
      exact ih xs2 r (Nat.succ_le_succ_iff.mp hk)

theorem mem_of_mem_dropL {α : Type} {a : α} :
    ∀ (k : Nat) (l : List α), a ∈ List.drop k l → a ∈ l := by
  intro k
  induction k with
  | zero => intro l h; exact h
  | succ k2 ih =>
    intro l h
    cases l with
    | nil => exact h
    | cons x xs => exact List.mem_cons_of_mem _ (ih xs h)

theorem replaceL_sep_cons (old new : List Char) {sep : Char}
    (hsep : sep ∉ old) (hold : old ≠ []) (ys : List Char) :
    replaceL old new (sep :: ys) = sep :: replaceL old new ys := by
  cases old with
  | nil => exact absurd rfl hold
  | cons q qs =>
    have hq : (q == sep) = false := by
      cases hqe : q == sep with
      | false => rfl
      | true =>
        exact absurd (List.mem_cons.mpr (Or.inl (eq_of_beq hqe).symm)) hsep
    have hsw : startsWithL (q :: qs) (sep :: ys) = false := by
      show (q == sep && startsWithL qs ys) = false
      rw [hq, Bool.false_and]
    exact replaceL_neg _ new hsw

theorem replaceL_append_sep_bound (old new : List Char) {sep : Char}
    (hsep : sep ∉ old) (hold : old ≠ []) :
    ∀ (n : Nat) (xs : List Char), xs.length ≤ n → ∀ (ys : List Char),
      replaceL old new (xs ++ sep :: ys) =
        replaceL old new xs ++ sep :: replaceL old new ys := by
  intro n
  induction n with
  | zero =>
    intro xs h ys
    have hxs : xs = [] := List.eq_nil_of_length_eq_zero (Nat.le_zero.mp h)
    subst hxs
    rw [List.nil_append, replaceL_sep_cons old new hsep hold, replaceL_nil,
        List.nil_append]
  | succ n2 ih =>
    intro xs hlen ys
    cases xs with
    | nil =>
      rw [List.nil_append, replaceL_sep_cons old new hsep hold, replaceL_nil,
          List.nil_append]
    | cons c xs2 =>
      have hlen2 : xs2.length ≤ n2 := Nat.succ_le_succ_iff.mp hlen
      cases hs : startsWithL old (c :: xs2) with
      | true =>
        have hext := startsWithL_extends (sep :: ys) hs
        rw [List.cons_append] at hext
        have hk : old.length - 1 ≤ xs2.length := by
          have := startsWithL_length hs
          simp at this
          omega
        have hdlen : (List.drop (old.length - 1) xs2).length ≤ n2 := by
          rw [List.length_drop]
          omega
        rw [List.cons_append, replaceL_pos old new hold hext,
            dropAppend _ _ _ hk, ih _ hdlen ys,
            replaceL_pos old new hold hs, List.append_assoc]
      | false =>
        have hext : startsWithL old (c :: (xs2 ++ sep :: ys)) = false := by
          rw [← List.cons_append]
          by_cases hl : old.length ≤ (c :: xs2).length
          · rw [startsWithL_append_le (sep :: ys) hl]
            exact hs
          · cases he : startsWithL old ((c :: xs2) ++ sep :: ys) with
            | false => rfl
            | true =>
              exact absurd (startsWithL_sep_mem _ he (by omega)) hsep
        rw [List.cons_append, replaceL_neg old new hext, ih xs2 hlen2 ys,
            replaceL_neg old new hs, List.cons_append]

theorem replaceL_append_sep (old new : List Char) {sep : Char}
    (hsep : sep ∉ old) (hold : old ≠ []) (xs ys : List Char) :
    replaceL old new (xs ++ sep :: ys) =
      replaceL old new xs ++ sep :: replaceL old new ys :=
  replaceL_append_sep_bound old new hsep hold xs.length xs Nat.le.refl ys

theorem not_mem_replaceL (old new : List Char) {sep : Char}
    (hnew : sep ∉ new) (hold : old ≠ []) :
    ∀ (n : Nat) (s : List Char), s.length ≤ n → sep ∉ s →
      sep ∉ replaceL old new s := by
  intro n
  induction n with
  | zero =>
    intro s h _
    have hs : s = [] := List.eq_nil_of_length_eq_zero (Nat.le_zero.mp h)
    subst hs
    rw [replaceL_nil]
    exact List.not_mem_nil sep
  | succ n2 ih =>
    intro s hlen hmem
    cases s with
    | nil =>
      rw [replaceL_nil]
      exact List.not_mem_nil sep
    | cons c cs =>
      have hcs : sep ∉ cs := fun hh => hmem (List.mem_cons_of_mem _ hh)
      have hlc : cs.length ≤ n2 := Nat.succ_le_succ_iff.mp hlen
      cases hs : startsWithL old (c :: cs) with
      | true =>
        rw [replaceL_pos old new hold hs]
        intro hin
        rcases List.mem_append.mp hin with hn | hd
        · exact hnew hn
        · have hlen3 : (List.drop (old.length - 1) cs).length ≤ n2 := by
            rw [List.length_drop]
            omega
          exact ih _ hlen3
            (fun hh => hcs (mem_of_mem_dropL _ _ hh)) hd
      | false =>
        rw [replaceL_neg old new hs]
        intro hin
        rcases List.mem_cons.mp hin with he | hd
        · exact hmem (List.mem_cons.mpr (Or.inl he))
        · exact ih cs hlc hcs hd

theorem splitOnChar_ne_nil (sep : Char) (s : List Char) :
    splitOnChar sep s ≠ [] := by
  cases s with
  | nil => simp [splitOnChar]
  | cons c cs =>
    show (if c == sep then [] :: splitOnChar sep cs
          else match splitOnChar sep cs with
            | [] => [[c]]
            | l :: ls => (c :: l) :: ls) ≠ []
    by_cases h : (c == sep) = true
    · rw [if_pos h]
      simp
    · rw [if_neg h]
      cases splitOnChar sep cs <;> simp

theorem joinSep_cons_cons (sep c : Char) (l : List Char)
    (ls : List (List Char)) :
    joinSep sep ((c :: l) :: ls) = c :: joinSep sep (l :: ls) := by
  cases ls <;> rfl

theorem joinSep_splitOnChar (sep : Char) (s : List Char) :
    joinSep sep (splitOnChar sep s) = s := by
  induction s with
  | nil => rfl
  | cons c cs ih =>
    show joinSep sep (if c == sep then [] :: splitOnChar sep cs
          else match splitOnChar sep cs with
            | [] => [[c]]
            | l :: ls => (c :: l) :: ls) = c :: cs
    by_cases h : (c == sep) = true
    · rw [if_pos h]
      have hc : c = sep := eq_of_beq h
      cases hL : splitOnChar sep cs with
      | nil => exact absurd hL (splitOnChar_ne_nil sep cs)
      | cons l ls =>
        show joinSep sep ([] :: l :: ls) = c :: cs
        show [] ++ sep :: joinSep sep (l :: ls) = c :: cs
        rw [List.nil_append, ← hL, ih, hc]
    · rw [if_neg h]
      cases hL : splitOnChar sep cs with
      | nil => exact absurd hL (splitOnChar_ne_nil sep cs)
      | cons l ls =>
        show joinSep sep ((c :: l) :: ls) = c :: cs
        rw [joinSep_cons_cons, ← hL, ih]

theorem splitOnChar_no_sep {sep : Char} {x : List Char} (h : sep ∉ x) :
    splitOnChar sep x = [x] := by
  induction x with
  | nil => rfl
  | cons c cs ih =>
    have hc : (c == sep) = false := by
      cases hce : c == sep with
      | false => rfl
      | true => exact absurd (List.mem_cons.mpr (Or.inl (eq_of_beq hce).symm)) h
    have hcs : sep ∉ cs := fun hh => h (List.mem_cons_of_mem _ hh)
    show (if c == sep then [] :: splitOnChar sep cs
          else match splitOnChar sep cs with
            | [] => [[c]]
            | l :: ls => (c :: l) :: ls) = [c :: cs]
    rw [if_neg (by rw [hc]; exact Bool.false_ne_true), ih hcs]

theorem splitOnChar_append_sep {sep : Char} {x : List Char} (h : sep ∉ x)
    (r : List Char) :
    splitOnChar sep (x ++ sep :: r) = x :: splitOnChar sep r := by
  induction x with
  | nil =>
    show (if sep == sep then [] :: splitOnChar sep r
          else match splitOnChar sep r with
            | [] => [[sep]]
            | l :: ls => (sep :: l) :: ls) = [] :: splitOnChar sep r
    rw [if_pos (beq_self_eq_true sep)]
  | cons c cs ih =>
    have hc : (c == sep) = false := by
      cases hce : c == sep with
      | false => rfl
      | true => exact absurd (List.mem_cons.mpr (Or.inl (eq_of_beq hce).symm)) h
    have hcs : sep ∉ cs := fun hh => h (List.mem_cons_of_mem _ hh)
    show (if c == sep then [] :: splitOnChar sep (cs ++ sep :: r)
          else match splitOnChar sep (cs ++ sep :: r) with
            | [] => [[c]]
            | l :: ls => (c :: l) :: ls) = (c :: cs) :: splitOnChar sep r
    rw [if_neg (by rw [hc]; exact Bool.false_ne_true), ih hcs]

theorem splitOnChar_joinSep {sep : Char} :
    ∀ (L : List (List Char)), L ≠ [] → (∀ l ∈ L, sep ∉ l) →
      splitOnChar sep (joinSep sep L) = L := by
  intro L
  induction L with
  | nil => intro h _; exact absurd rfl h
  | cons x ls ih =>
    intro _ hmem
    cases ls with
    | nil =>
      show splitOnChar sep x = [x]
      exact splitOnChar_no_sep (hmem x (List.mem_cons_self _ _))
    | cons y ms =>
      show splitOnChar sep (x ++ sep :: joinSep sep (y :: ms)) = x :: y :: ms
      rw [splitOnChar_append_sep (hmem x (List.mem_cons_self _ _)),
          ih (by simp) (fun l hl => hmem l (List.mem_cons_of_mem _ hl))]

theorem not_mem_of_mem_splitOnChar {sep : Char} :
    ∀ (s : List Char) (l : List Char), l ∈ splitOnChar sep s → sep ∉ l := by
  intro s
  induction s with
  | nil =>
    intro l hl
    have : l = [] := by simpa [splitOnChar] using hl
    subst this
    exact List.not_mem_nil sep
  | cons c cs ih =>
    intro l hl
    by_cases h : (c == sep) = true
    · rw [show splitOnChar sep (c :: cs) = [] :: splitOnChar sep cs from by
            show (if c == sep then _ else _) = _
            rw [if_pos h]] at hl
      rcases List.mem_cons.mp hl with he | hm
      · subst he
        exact List.not_mem_nil sep
      · exact ih l hm
    · have hc : c ≠ sep := fun hh => h (by rw [hh]; exact beq_self_eq_true sep)
      cases hL : splitOnChar sep cs with
      | nil => exact absurd hL (splitOnChar_ne_nil sep cs)
      | cons l0 ls =>
        rw [show splitOnChar sep (c :: cs) = (c :: l0) :: ls from by
              show (if c == sep then _ else _) = _
              rw [if_neg h, hL]] at hl
        rcases List.mem_cons.mp hl with he | hm
        · subst he
          intro hin
          rcases List.mem_cons.mp hin with he2 | hm2
          · exact hc he2.symm
          · exact ih l0 (by rw [hL]; exact List.mem_cons_self _ _) hm2
        · exact ih l (by rw [hL]; exact List.mem_cons_of_mem _ hm)

theorem replaceL_joinSep (old new : List Char) {sep : Char}
    (hsep : sep ∉ old) (hold : old ≠ []) :
    ∀ (L : List (List Char)),
      replaceL old new (joinSep sep L) =
        joinSep sep (L.map (replaceL old new)) := by
  intro L
  induction L with
  | nil => rfl
  | cons x ls ih =>
    cases ls with
    | nil => rfl
    | cons y ms =>
      show replaceL old new (x ++ sep :: joinSep sep (y :: ms)) =
        joinSep sep (replaceL old new x :: (y :: ms).map (replaceL old new))
      rw [replaceL_append_sep old new hsep hold, ih]
      rfl

theorem splitOnChar_replaceL (old new : List Char) {sep : Char}
    (hsep : sep ∉ old) (hnew : sep ∉ new) (hold : old ≠ [])
    (s : List Char) :
    splitOnChar sep (replaceL old new s) =
      (splitOnChar sep s).map (replaceL old new) := by
  calc splitOnChar sep (replaceL old new s)
      = splitOnChar sep (replaceL old new (joinSep sep (splitOnChar sep s))) := by
        rw [joinSep_splitOnChar]
    _ = splitOnChar sep (joinSep sep ((splitOnChar sep s).map (replaceL old new))) := by
        rw [replaceL_joinSep old new hsep hold]
    _ = (splitOnChar sep s).map (replaceL old new) := by
        refine splitOnChar_joinSep _ (by
          intro hnil
          exact splitOnChar_ne_nil sep s (List.map_eq_nil_iff.mp hnil)) ?_
        intro l hl
        rcases List.mem_map.mp hl with ⟨l0, hl0, rfl⟩
        exact not_mem_replaceL old new hnew hold l0.length l0 Nat.le.refl
          (not_mem_of_mem_splitOnChar s l0 hl0)

/-- Concrete broker stdout exercising claim C2: a leading informational
line, then a line whose `u`-quote artifact follows `\x7b` rather than a
space — `"head\n\x7bu'state': 2\x7d"`. -/
def c2Input : List Char :=
  "head".toList ++ ['\n', '{', 'u', qc] ++ "state".toList ++
    [qc, ':', ' ', '2', '}']

/-- Claim C2 counterexample: the claimed normalization (drop the first
line, then replace every occurrence of `u'` with `'` and `u\x22` with
`\x22`) disagrees with the code's normalization on `c2Input`, because the
code only rewrites occurrences preceded by a space (docker.py lines 64-65
replace `" u'"` and `" u\x22"`), and the occurrence after `\x7b` is kept. -/
theorem claim_C2_counterexample :
    claimNormalizeC2 c2Input ≠ normalizeOdcsOutput c2Input := by
  decide

theorem drop_map_comm {α β : Type} (f : α → β) :
    ∀ (n : Nat) (l : List α),
      List.drop n (List.map f l) = List.map f (List.drop n l) := by
  intro n
  induction n with
  | zero => intro l; rfl
  | succ n2 ih =>
    intro l
    cases l with
    | nil => rfl
    | cons x xs => exact ih xs

/-- Claim C2 (amended): for every broker stdout text, the Content-Set
Generator discards the first line of the output and, within each remaining
line, replaces every space-preceded occurrence of the legacy quoting
artifact — `" u'"` becomes `" '"` and `" u\x22"` becomes `" \x22"` — before
parsing the remainder as structured data.  (The code performs the
replacement before splitting off the first line; this theorem proves that
equal to the discard-first formulation, since the patterns contain no
newline.) -/
theorem claim_C2_normalization (s : List Char) :
    normalizeOdcsOutput s =
      joinSep '\n' (((splitOnChar '\n' s).drop 1).map
        (fun l => replaceL patSpaceUDQ repSpaceDQ
          (replaceL patSpaceUQ repSpaceQ l))) := by
  unfold normalizeOdcsOutput
  rw [splitOnChar_replaceL patSpaceUDQ repSpaceDQ (by decide) (by decide)
        (by decide),
      splitOnChar_replaceL patSpaceUQ repSpaceQ (by decide) (by decide)
        (by decide),
      List.map_map, drop_map_comm]
  rfl

/-- Claim C9: for every repository backing store and every value, the
`filename` setter (packages.py lines 255-261) removes all four source-kind
fields `id`, `url`, `rpm`, `odcs` and stores the new `filename`, so the
repository is left with zero source kinds populated — the `filename`
mutator does not preserve the exactly-one-source-kind invariant. -/
theorem claim_C9_filename_setter (d : Dict) (v : Val) :
    lookupD "id" (setFilename v d) = Option.none ∧
    lookupD "url" (setFilename v d) = Option.none ∧
    lookupD "rpm" (setFilename v d) = Option.none ∧
    lookupD "odcs" (setFilename v d) = Option.none ∧
    lookupD "filename" (setFilename v d) = some v := by
  unfold setFilename
  refine ⟨?_, ?_, ?_, ?_, ?_⟩
  · rw [lookupD_eraseKey_ne (by decide), lookupD_eraseKey_ne (by decide),
        lookupD_eraseKey_ne (by decide), lookupD_eraseKey_self]
  · rw [lookupD_eraseKey_ne (by decide), lookupD_eraseKey_ne (by decide),
        lookupD_eraseKey_self]
  · rw [lookupD_eraseKey_ne (by decide), lookupD_eraseKey_self]
  · rw [lookupD_eraseKey_self]
  · rw [lookupD_eraseKey_ne (by decide), lookupD_eraseKey_ne (by decide),
        lookupD_eraseKey_ne (by decide), lookupD_eraseKey_ne (by decide),
        lookupD_insertD_self]

theorem lookupD_eraseKey (k k2 : String) (d : Dict) :
    lookupD k (eraseKey k2 d) =
      if k = k2 then Option.none else lookupD k d := by
  by_cases h : k = k2
  · subst h
    simp [lookupD_eraseKey_self]
  · simp [h, lookupD_eraseKey_ne h]

theorem lookupD_insertD (k k2 : String) (v : Val) (d : Dict) :
    lookupD k (insertD k2 v d) =
      if k = k2 then some v else lookupD k d := by
  by_cases h : k = k2
  · subst h
    simp [lookupD_insertD_self]
  · simp [h, lookupD_insertD_ne h]

theorem repositoryInit_noFile_noUrl (d2 : Dict) (n : String)
    (hfn : lookupD "filename" d2 = Option.none)
    (hn : lookupD "name" d2 = some (Val.str n))
    (hurl : lookupD "url" d2 = Option.none)
    (hxor : Bool.xor (Bool.xor (containsD "odcs" d2) (containsD "id" d2))
        (containsD "rpm" d2) = true) :
    ∃ d3, repositoryInit d2 = Except.ok d3 ∧
      lookupD "filename" d3 = some (Val.str (deriveFilename n)) ∧
      lookupD "url" d3 = some (Val.dict []) := by
  have hcfn : containsD "filename" d2 = false := by simp [containsD, hfn]
  have hcu : containsD "url"
      (insertD "filename" (Val.str (deriveFilename n)) d2) = false := by
    simp [containsD, lookupD_insertD, hurl]
  have hco : containsD "odcs"
      (insertD "filename" (Val.str (deriveFilename n)) d2) =
      containsD "odcs" d2 := by
    simp [containsD, lookupD_insertD]
  have hci : containsD "id"
      (insertD "filename" (Val.str (deriveFilename n)) d2) =
      containsD "id" d2 := by
    simp [containsD, lookupD_insertD]
  have hcr : containsD "rpm"
      (insertD "filename" (Val.str (deriveFilename n)) d2) =
      containsD "rpm" d2 := by
    simp [containsD, lookupD_insertD]
  cases hp : containsD "present"
      (insertD "url" (Val.dict [])
        (insertD "filename" (Val.str (deriveFilename n)) d2)) with
  | true =>
    refine ⟨insertD "url" (Val.dict [])
        (insertD "filename" (Val.str (deriveFilename n)) d2), ?_, ?_, ?_⟩
    · simp only [repositoryInit, hcfn, hn, Bool.false_eq_true, if_false, hcu,
        hco, hci, hcr, Bool.false_xor, hxor, Bool.not_true, hp, if_true]
    · simp [lookupD_insertD]
    · simp [lookupD_insertD]
  | false =>
    refine ⟨insertD "present" (Val.b true)
        (insertD "url" (Val.dict [])
          (insertD "filename" (Val.str (deriveFilename n)) d2)), ?_, ?_, ?_⟩
    · simp only [repositoryInit, hcfn, hn, Bool.false_eq_true, if_false, hcu,
        hco, hci, hcr, Bool.false_xor, hxor, Bool.not_true, hp]
    · simp [lookupD_insertD]
    · simp [lookupD_insertD]

theorem repositoryInit_noFile_url (d2 : Dict) (n : String) (v : Val)
    (hfn : lookupD "filename" d2 = Option.none)
    (hn : lookupD "name" d2 = some (Val.str n))
    (hurl : lookupD "url" d2 = some v)
    (hxor : Bool.xor (Bool.xor (containsD "odcs" d2) (containsD "id" d2))
        (containsD "rpm" d2) = false) :
    ∃ d3, repositoryInit d2 = Except.ok d3 ∧
      lookupD "filename" d3 = some (Val.str (deriveFilename n)) := by
  have hcfn : containsD "filename" d2 = false := by simp [containsD, hfn]
  have hcu : containsD "url"
      (insertD "filename" (Val.str (deriveFilename n)) d2) = true := by
    simp [containsD, lookupD_insertD, hurl]
  have hco : containsD "odcs"
      (insertD "filename" (Val.str (deriveFilename n)) d2) =
      containsD "odcs" d2 := by
    simp [containsD, lookupD_insertD]
  have hci : containsD "id"
      (insertD "filename" (Val.str (deriveFilename n)) d2) =
      containsD "id" d2 := by
    simp [containsD, lookupD_insertD]
  have hcr : containsD "rpm"
      (insertD "filename" (Val.str (deriveFilename n)) d2) =
      containsD "rpm" d2 := by
    simp [containsD, lookupD_insertD]
  cases hp : containsD "present"
      (insertD "filename" (Val.str (deriveFilename n)) d2) with
  | true =>
    refine ⟨insertD "filename" (Val.str (deriveFilename n)) d2, ?_, ?_⟩
    · simp only [repositoryInit, hcfn, hn, Bool.false_eq_true, if_false, hcu,
        hco, hci, hcr, Bool.true_xor, hp, if_true]
      revert hxor
      cases containsD "odcs" d2 <;> cases containsD "id" d2 <;>
        cases containsD "rpm" d2 <;> intro hxor <;>
        first
        | rfl
        | exact absurd hxor (by decide)
    · simp [lookupD_insertD]
  | false =>
    refine ⟨insertD "present" (Val.b true)
        (insertD "filename" (Val.str (deriveFilename n)) d2), ?_, ?_⟩
    · simp only [repositoryInit, hcfn, hn, Bool.false_eq_true, if_false, hcu,
        hco, hci, hcr, Bool.true_xor, hp, if_true]
      revert hxor
      cases containsD "odcs" d2 <;> cases containsD "id" d2 <;>
        cases containsD "rpm" d2 <;> intro hxor <;>
        first
        | rfl
        | exact absurd hxor (by decide)
    · simp [lookupD_insertD]

/-- The four mutually exclusive repository source kinds. -/
inductive SrcKind where
  | id
  | url
  | rpm
  | odcs
deriving DecidableEq

/-- The descriptor key of a source kind. -/
def SrcKind.key : SrcKind → String
  | SrcKind.id => "id"
  | SrcKind.url => "url"
  | SrcKind.rpm => "rpm"
  | SrcKind.odcs => "odcs"

/-- Dispatch to the corresponding property setter of packages.py. -/
def applySetter : SrcKind → Val → Dict → Dict
  | SrcKind.id => setId
  | SrcKind.url => setUrl
  | SrcKind.rpm => setRpm
  | SrcKind.odcs => setOdcs

/-- Claim C3: for every repository backing store and every value, setting
any one of the four source-kind mutators `id`, `url`, `rpm`, `odcs`
(packages.py lines 203-249) removes the other three source-kind fields and
removes `filename` from the backing store; consequently, when a Repository
is next constructed from the resulting store, `filename` is re-derived
from `name` (packages.py lines 110-111). -/
theorem claim_C3_setters (k : SrcKind) (d : Dict) (v : Val) (n : String)
    (hname : lookupD "name" d = some (Val.str n)) :
    (∀ k2 : SrcKind, k2 ≠ k →
       lookupD (SrcKind.key k2) (applySetter k v d) = Option.none) ∧
    lookupD "filename" (applySetter k v d) = Option.none ∧
    lookupD (SrcKind.key k) (applySetter k v d) = some v ∧
    ∃ d3, repositoryInit (applySetter k v d) = Except.ok d3 ∧
      lookupD "filename" d3 = some (Val.str (deriveFilename n)) := by
  cases k with
  | id =>
    refine ⟨?_, ?_, ?_, ?_⟩
    · intro k2 hk2
      cases k2 with
      | id => exact absurd rfl hk2
      | url => simp [applySetter, setId, SrcKind.key, lookupD_eraseKey,
                     lookupD_insertD]
      | rpm => simp [applySetter, setId, SrcKind.key, lookupD_eraseKey,
                     lookupD_insertD]
      | odcs => simp [applySetter, setId, SrcKind.key, lookupD_eraseKey,
                      lookupD_insertD]
    · simp [applySetter, setId, lookupD_eraseKey, lookupD_insertD]
    · simp [applySetter, setId, SrcKind.key, lookupD_eraseKey,
            lookupD_insertD]
    · obtain ⟨d3, h1, h2, _⟩ := repositoryInit_noFile_noUrl
        (applySetter SrcKind.id v d) n
        (by simp [applySetter, setId, lookupD_eraseKey, lookupD_insertD])
        (by simp [applySetter, setId, lookupD_eraseKey, lookupD_insertD,
                  hname])
        (by simp [applySetter, setId, lookupD_eraseKey, lookupD_insertD])
        (by simp [applySetter, setId, containsD, lookupD_eraseKey,
                  lookupD_insertD])
      exact ⟨d3, h1, h2⟩
  | url =>
    refine ⟨?_, ?_, ?_, ?_⟩
    · intro k2 hk2
      cases k2 with
      | url => exact absurd rfl hk2
      | id => simp [applySetter, setUrl, SrcKind.key, lookupD_eraseKey,
                    lookupD_insertD]
      | rpm => simp [applySetter, setUrl, SrcKind.key, lookupD_eraseKey,
                     lookupD_insertD]
      | odcs => simp [applySetter, setUrl, SrcKind.key, lookupD_eraseKey,
                      lookupD_insertD]
    · simp [applySetter, setUrl, lookupD_eraseKey, lookupD_insertD]
    · simp [applySetter, setUrl, SrcKind.key, lookupD_eraseKey,
            lookupD_insertD]
    · exact repositoryInit_noFile_url (applySetter SrcKind.url v d) n v
        (by simp [applySetter, setUrl, lookupD_eraseKey, lookupD_insertD])
        (by simp [applySetter, setUrl, lookupD_eraseKey, lookupD_insertD,
                  hname])
        (by simp [applySetter, setUrl, lookupD_eraseKey, lookupD_insertD])
        (by simp [applySetter, setUrl, containsD, lookupD_eraseKey,
                  lookupD_insertD])
  | rpm =>
    refine ⟨?_, ?_, ?_, ?_⟩
    · intro k2 hk2
      cases k2 with
      | rpm => exact absurd rfl hk2
      | id => simp [applySetter, setRpm, SrcKind.key, lookupD_eraseKey,
                    lookupD_insertD]
      | url => simp [applySetter, setRpm, SrcKind.key, lookupD_eraseKey,
                     lookupD_insertD]
      | odcs => simp [applySetter, setRpm, SrcKind.key, lookupD_eraseKey,
                      lookupD_insertD]
    · simp [applySetter, setRpm, lookupD_eraseKey, lookupD_insertD]
    · simp [applySetter, setRpm, SrcKind.key, lookupD_eraseKey,
            lookupD_insertD]
    · obtain ⟨d3, h1, h2, _⟩ := repositoryInit_noFile_noUrl
        (applySetter SrcKind.rpm v d) n
        (by simp [applySetter, setRpm, lookupD_eraseKey, lookupD_insertD])
        (by simp [applySetter, setRpm, lookupD_eraseKey, lookupD_insertD,
                  hname])
        (by simp [applySetter, setRpm, lookupD_eraseKey, lookupD_insertD])
        (by simp [applySetter, setRpm, containsD, lookupD_eraseKey,
                  lookupD_insertD])
      exact ⟨d3, h1, h2⟩
  | odcs =>
    refine ⟨?_, ?_, ?_, ?_⟩
    · intro k2 hk2
      cases k2 with
      | odcs => exact absurd rfl hk2
      | id => simp [applySetter, setOdcs, SrcKind.key, lookupD_eraseKey,
                    lookupD_insertD]
      | url => simp [applySetter, setOdcs, SrcKind.key, lookupD_eraseKey,
                     lookupD_insertD]
      | rpm => simp [applySetter, setOdcs, SrcKind.key, lookupD_eraseKey,
                     lookupD_insertD]
    · simp [applySetter, setOdcs, lookupD_eraseKey, lookupD_insertD]
    · simp [applySetter, setOdcs, SrcKind.key, lookupD_eraseKey,
            lookupD_insertD]
    · obtain ⟨d3, h1, h2, _⟩ := repositoryInit_noFile_noUrl
        (applySetter SrcKind.odcs v d) n
        (by simp [applySetter, setOdcs, lookupD_eraseKey, lookupD_insertD])
        (by simp [applySetter, setOdcs, lookupD_eraseKey, lookupD_insertD,
                  hname])
        (by simp [applySetter, setOdcs, lookupD_eraseKey, lookupD_insertD])
        (by simp [applySetter, setOdcs, containsD, lookupD_eraseKey,
                  lookupD_insertD])
      exact ⟨d3, h1, h2⟩

/-- A concrete URL-kind repository store used to witness claim C3. -/
def c3Repo : Dict :=
  [("name", Val.str "foo bar"),
   ("url", Val.dict [("repository", Val.str "http://x")]),
   ("filename", Val.str "f.repo")]

/-- Witness for claim C3 at a concrete input: setting `id` on `c3Repo`
clears `url`, `rpm`, `odcs` and `filename`, stores the new `id`, and a
Repository constructed from the result re-derives
`filename = "foo_bar.repo"`. -/
theorem claim_C3_witness :
    lookupD "url" (applySetter SrcKind.id (Val.str "myid") c3Repo) =
      Option.none ∧
    lookupD "rpm" (applySetter SrcKind.id (Val.str "myid") c3Repo) =
      Option.none ∧
    lookupD "odcs" (applySetter SrcKind.id (Val.str "myid") c3Repo) =
      Option.none ∧
    lookupD "filename" (applySetter SrcKind.id (Val.str "myid") c3Repo) =
      Option.none ∧
    lookupD "id" (applySetter SrcKind.id (Val.str "myid") c3Repo) =
      some (Val.str "myid") ∧
    deriveFilename "foo bar" = "foo_bar.repo" ∧
    (∃ d3, repositoryInit (applySetter SrcKind.id (Val.str "myid") c3Repo) =
       Except.ok d3 ∧
       lookupD "filename" d3 = some (Val.str (deriveFilename "foo bar"))) :=
  ⟨(claim_C3_setters SrcKind.id c3Repo (Val.str "myid") "foo bar" rfl).1
      SrcKind.url (by decide),
   (claim_C3_setters SrcKind.id c3Repo (Val.str "myid") "foo bar" rfl).1
      SrcKind.rpm (by decide),
   (claim_C3_setters SrcKind.id c3Repo (Val.str "myid") "foo bar" rfl).1
      SrcKind.odcs (by decide),
   (claim_C3_setters SrcKind.id c3Repo (Val.str "myid") "foo bar" rfl).2.1,
   (claim_C3_setters SrcKind.id c3Repo (Val.str "myid") "foo bar" rfl).2.2.1,
   rfl,
   (claim_C3_setters SrcKind.id c3Repo (Val.str "myid") "foo bar" rfl).2.2.2⟩

/-- Claim C4: for every parsed broker result mapping carrying `state`,
`state_reason` and `result_repofile` fields, the state check of docker.py
lines 70-75 returns the broker-supplied `result_repofile` value when
`state` equals 2, and for any other state value raises an error whose
message contains the broker-supplied `state_reason`. -/
theorem claim_C4_state_check (m : Dict) (st : Val) (sr : String) (rfv : Val)
    (hst : lookupD "state" m = some st)
    (hsr : lookupD "state_reason" m = some (Val.str sr))
    (hrf : lookupD "result_repofile" m = some rfv) :
    (pyEqInt st 2 = true →
       odcsResultToRepoUrl (Val.dict m) = Except.ok rfv) ∧
    (pyEqInt st 2 = false →
       ∃ front back, odcsResultToRepoUrl (Val.dict m) =
         Except.error (PyErr.cekit (front ++ sr ++ back))) := by
  constructor
  · intro h2
    simp [odcsResultToRepoUrl, hst, h2, hrf]
  · intro h2
    refine ⟨"Cannot create content set: " ++ sqS, sqS, ?_⟩
    simp [odcsResultToRepoUrl, hst, h2, hsr, formatVal, String.append_assoc]

/-- A successful parsed broker result used to witness claim C4. -/
def c4OkResult : Dict :=
  [("state", Val.i 2), ("state_reason", Val.str "done"),
   ("result_repofile", Val.str "http://x/y.repo")]

/-- A failed parsed broker result used to witness claim C4. -/
def c4FailResult : Dict :=
  [("state", Val.i 4), ("state_reason", Val.str "failed"),
   ("result_repofile", Val.str "")]

/-- Witness for claim C4 at concrete inputs: `state: 2` yields the
`result_repofile` value `"http://x/y.repo"`; `state: 4` with
`state_reason: "failed"` yields an error whose message contains
`"failed"`. -/
theorem claim_C4_witness :
    odcsResultToRepoUrl (Val.dict c4OkResult) =
      Except.ok (Val.str "http://x/y.repo") ∧
    (∃ front back, odcsResultToRepoUrl (Val.dict c4FailResult) =
       Except.error (PyErr.cekit (front ++ "failed" ++ back))) :=
  ⟨(claim_C4_state_check c4OkResult (Val.i 2) "done"
      (Val.str "http://x/y.repo") rfl rfl rfl).1 rfl,
   (claim_C4_state_check c4FailResult (Val.i 4) "failed"
      (Val.str "") rfl rfl rfl).2 rfl⟩

/-- Claim C5: for every input mapping containing both the `content_sets`
key and the `content_sets_file` key, whatever their values, `Packages`
construction (packages.py lines 52-53) raises the mutual-exclusion
`CekitError`. -/
theorem claim_C5_mutual_exclusion (cfgRepos : Dict) (descriptorPath : String)
    (fs : String → Option Val) (d : Dict)
    (h1 : containsD "content_sets_file" d = true)
    (h2 : containsD "content_sets" d = true) :
    packagesInit cfgRepos descriptorPath fs d =
      Except.error (PyErr.cekit
        "You cannot specify content_sets and content_sets_file together!") := by
  simp [packagesInit, h1, h2]

/-- A descriptor carrying both content-set keys, witnessing claim C5. -/
def c5Desc : Dict :=
  [("content_sets", Val.dict [("x86_64", Val.list [Val.str "rhel-7-server"])]),
   ("content_sets_file", Val.str "cs.yml")]

/-- Witness for claim C5 at a concrete input. -/
theorem claim_C5_witness :
    packagesInit [] "" (fun _ => Option.none) c5Desc =
      Except.error (PyErr.cekit
        "You cannot specify content_sets and content_sets_file together!") :=
  claim_C5_mutual_exclusion [] "" (fun _ => Option.none) c5Desc rfl rfl

/-- Claim C7: with the trust-controlled (redhat) configuration enabled, a
`content_sets` mapping with no entry for the current build platform's
architecture makes `_prepare_content_sets` (docker.py lines 47-49) raise a
`CekitError` without invoking the external broker process — the recorded
broker-invocation trace is empty. -/
theorem claim_C7_missing_arch (paramsRedhat : Bool) (arch : String)
    (cs : List (String × List String)) (broker : List String → BrokerOut)
    (parse : List Char → Except Unit Val)
    (hmiss : lookupCS arch cs = Option.none) :
    prepareContentSets true paramsRedhat arch cs broker parse =
      (Except.error (PyErr.cekit
        ("There are no contet_sets defined for platform "
          ++ sqS ++ "%s" ++ sqS ++ "!")), []) := by
  simp [prepareContentSets, hmiss]

/-- Witness for claim C7 at a concrete input: empty `content_sets`,
architecture `x86_64`, a broker that would fail if ever invoked. -/
theorem claim_C7_witness :
    prepareContentSets true false "x86_64" []
        (fun _ => BrokerOut.osError) (fun _ => Except.error ()) =
      (Except.error (PyErr.cekit
        ("There are no contet_sets defined for platform "
          ++ sqS ++ "%s" ++ sqS ++ "!")), []) :=
  claim_C7_missing_arch false "x86_64" [] (fun _ => BrokerOut.osError)
    (fun _ => Except.error ()) rfl

theorem prepareArtifacts_eq_go {A E : Type} (copy : A → Except E Unit)
    (artifacts : List A) :
    prepareArtifacts copy artifacts = prepareArtifactsGo copy artifacts := by
  cases artifacts <;> rfl

theorem prepareArtifactsGo_all_ok {A E : Type} (copy : A → Except E Unit) :
    ∀ (arts : List A), (∀ a ∈ arts, copy a = Except.ok ()) →
      prepareArtifactsGo copy arts = (Except.ok (), arts) := by
  intro arts
  induction arts with
  | nil => intro _; rfl
  | cons a rest ih =>
    intro h
    have ha : copy a = Except.ok () := h a (List.mem_cons_self _ _)
    have hrest := ih (fun b hb => h b (List.mem_cons_of_mem _ hb))
    simp [prepareArtifactsGo, ha, hrest]

theorem prepareArtifactsGo_first_fail {A E : Type} (copy : A → Except E Unit)
    (a : A) (e : E) (he : copy a = Except.error e) :
    ∀ (front post : List A), (∀ b ∈ front, copy b = Except.ok ()) →
      prepareArtifactsGo copy (front ++ a :: post) =
        (Except.error e, front ++ [a]) := by
  intro front
  induction front with
  | nil =>
    intro post _
    simp [prepareArtifactsGo, he]
  | cons f fs ih =>
    intro post h
    have hf : copy f = Except.ok () := h f (List.mem_cons_self _ _)
    have hrest := ih post (fun b hb => h b (List.mem_cons_of_mem _ hb))
    simp [prepareArtifactsGo, hf, hrest]

/-- Claim C8: the artifact preparation driver (docker.py lines 90-103)
performs no copy operation and returns without error when the image
declares zero artifacts; with N declared artifacts it invokes each
artifact's `copy` exactly once, in declaration order (trace = the artifact
list), and the first `copy` failure aborts the remaining copies with the
error propagated unchanged (trace = the prefix up to and including the
failing artifact). -/
theorem claim_C8_artifact_driver {A E : Type} (copy : A → Except E Unit) :
    prepareArtifacts copy ([] : List A) = (Except.ok (), []) ∧
    (∀ arts : List A, (∀ a ∈ arts, copy a = Except.ok ()) →
       prepareArtifacts copy arts = (Except.ok (), arts)) ∧
    (∀ (front post : List A) (a : A) (e : E),
       (∀ b ∈ front, copy b = Except.ok ()) → copy a = Except.error e →
       prepareArtifacts copy (front ++ a :: post) =
         (Except.error e, front ++ [a])) := by
  refine ⟨rfl, ?_, ?_⟩
  · intro arts h
    rw [prepareArtifacts_eq_go]
    exact prepareArtifactsGo_all_ok copy arts h
  · intro front post a e h he
    rw [prepareArtifacts_eq_go]
    exact prepareArtifactsGo_first_fail copy a e he front post h

/-- A concrete copy collaborator for the claim C8 witness: artifacts 0 and
1 copy fine, artifact 5 fails. -/
def c8Copy : Nat → Except String Unit :=
  fun n => if n < 2 then Except.ok () else Except.error "boom"

/-- Witness for claim C8 at concrete inputs: zero artifacts give no copy
invocations and success; `[0, 1]` gives two in-order invocations and
success; `[0, 1, 5, 7]` stops at the failing artifact 5 with its error
propagated and artifact 7 never copied. -/
theorem claim_C8_witness :
    prepareArtifacts c8Copy ([] : List Nat) = (Except.ok (), []) ∧
    prepareArtifacts c8Copy [0, 1] = (Except.ok (), [0, 1]) ∧
    prepareArtifacts c8Copy [0, 1, 5, 7] = (Except.error "boom", [0, 1, 5]) :=
  ⟨(claim_C8_artifact_driver c8Copy).1,
   (claim_C8_artifact_driver c8Copy).2.1 [0, 1]
     (by intro b hb; fin_cases hb <;> rfl),
   (claim_C8_artifact_driver c8Copy).2.2 [0, 1] [7] 5 "boom"
     (by intro b hb; fin_cases hb <;> rfl) rfl⟩

theorem lookupD_prepareField {cfgRepos d q : Dict} {k : String}
    (hk : k ≠ "repositories") (h : prepareField cfgRepos d = Except.ok q) :
    lookupD k q = lookupD k d := by
  unfold prepareField at h
  cases hL : lookupD "repositories" d with
  | none =>
    rw [hL] at h
    simp only [Except.ok.injEq] at h
    rw [← h, lookupD_insertD_ne hk]
  | some v =>
    rw [hL] at h
    cases v with
    | list xs =>
      cases hI : initRepos cfgRepos xs with
      | error e =>
        simp only [hI] at h
        exact absurd h (by simp)
      | ok rs =>
        simp only [hI, Except.ok.injEq] at h
        rw [← h, lookupD_insertD_ne hk]
    | none => simp at h
    | str s => simp at h
    | b bv => simp at h
    | i nv => simp at h
    | dict en => simp at h

/-- Claim C6: for every `Packages` input with a `content_sets_file` key
(and no `content_sets` key), the path is resolved relative to the
descriptor directory; if the resolved file does not exist, construction
(packages.py lines 55-63) raises the file-not-found `CekitError`, and if
it exists, its parsed contents are stored under `content_sets` and the
`content_sets_file` key is absent from the resulting entity. -/
theorem claim_C6_content_sets_file (cfgRepos : Dict) (dir : String)
    (fs : String → Option Val) (d : Dict) (p : String)
    (hf : lookupD "content_sets_file" d = some (Val.str p))
    (hcs : containsD "content_sets" d = false) :
    (fs (joinPath dir p) = Option.none →
       packagesInit cfgRepos dir fs d =
         Except.error (PyErr.cekit
           (sqS ++ joinPath dir p ++ sqS ++ " file not found!"))) ∧
    (∀ (content : Val) (q : Dict), fs (joinPath dir p) = some content →
       packagesInit cfgRepos dir fs d = Except.ok q →
       lookupD "content_sets" q = some content ∧
       lookupD "content_sets_file" q = Option.none) := by
  have hcf : containsD "content_sets_file" d = true := by simp [containsD, hf]
  constructor
  · intro hfs
    simp [packagesInit, hcf, hcs, hf, hfs]
  · intro content q hfs hq
    have hq2 : prepareField cfgRepos
        (eraseKey "content_sets_file" (insertD "content_sets" content d)) =
        Except.ok q := by
      simpa [packagesInit, hcf, hcs, hf, hfs] using hq
    constructor
    · rw [lookupD_prepareField (by decide) hq2]
      simp [lookupD_eraseKey, lookupD_insertD]
    · rw [lookupD_prepareField (by decide) hq2, lookupD_eraseKey_self]

/-- A descriptor referencing an external content-sets file, for the claim
C6 witness. -/
def c6Desc : Dict := [("content_sets_file", Val.str "cs.yml")]

/-- The parsed contents of the referenced content-sets file in the claim
C6 witness. -/
def c6Content : Val :=
  Val.dict [("x86_64", Val.list [Val.str "rhel-7-server-rpms"])]

/-- A filesystem in which every path resolves to `c6Content`. -/
def c6Fs : String → Option Val := fun _ => some c6Content

/-- The entity resulting from constructing `Packages` on `c6Desc` over
`c6Fs`. -/
def c6Result : Dict :=
  [("content_sets", c6Content), ("repositories", Val.list [])]

/-- Witness for claim C6 at concrete inputs: with a filesystem lacking the
file, construction fails naming the resolved path `dir/cs.yml`; with the
file present, the resulting entity holds its parsed contents under
`content_sets` and no `content_sets_file` key. -/
theorem claim_C6_witness :
    packagesInit [] "dir" (fun _ => Option.none) c6Desc =
      Except.error (PyErr.cekit
        (sqS ++ "dir/cs.yml" ++ sqS ++ " file not found!")) ∧
    (lookupD "content_sets" c6Result = some c6Content ∧
     lookupD "content_sets_file" c6Result = Option.none) :=
  ⟨(claim_C6_content_sets_file [] "dir" (fun _ => Option.none) c6Desc
      "cs.yml" rfl rfl).1 rfl,
   (claim_C6_content_sets_file [] "dir" c6Fs c6Desc "cs.yml" rfl rfl).2
      c6Content c6Result rfl rfl⟩

theorem repositoryInit_file_noUrl (d2 : Dict) (w : Val)
    (hfn : lookupD "filename" d2 = some w)
    (hurl : lookupD "url" d2 = Option.none)
    (hxor : Bool.xor (Bool.xor (containsD "odcs" d2) (containsD "id" d2))
        (containsD "rpm" d2) = true) :
    ∃ d3, repositoryInit d2 = Except.ok d3 ∧
      lookupD "url" d3 = some (Val.dict []) := by
  have hcfn : containsD "filename" d2 = true := by simp [containsD, hfn]
  have hcu : containsD "url" d2 = false := by simp [containsD, hurl]
  cases hp : containsD "present" (insertD "url" (Val.dict []) d2) with
  | true =>
    refine ⟨insertD "url" (Val.dict []) d2, ?_, ?_⟩
    · simp only [repositoryInit, hcfn, if_true, hcu, Bool.false_xor, hxor,
        Bool.not_true, Bool.false_eq_true, if_false, hp]
    · simp [lookupD_insertD]
  | false =>
    refine ⟨insertD "present" (Val.b true) (insertD "url" (Val.dict []) d2),
        ?_, ?_⟩
    · simp only [repositoryInit, hcfn, if_true, hcu, Bool.false_xor, hxor,
        Bool.not_true, Bool.false_eq_true, if_false, hp]
    · simp [lookupD_insertD]

/-- Claim C10: the fetch precondition guard (packages.py line 172) reads
the `repository` key of the `url` mapping before checking it; for every
Repository constructed with an `id`, `rpm` or `odcs` source kind, `url`
is defaulted to an empty mapping at construction (packages.py lines
121-122), so calling `fetch` on such a repository fails with a key-lookup
error (`KeyError` on `repository`) rather than the `CekitError` that
names the repository. -/
theorem claim_C10_fetch_keyerror (d0 : Dict) (n : String) (targetDir : String)
    (hname : lookupD "name" d0 = some (Val.str n))
    (hurl : lookupD "url" d0 = Option.none)
    (hone : (containsD "id" d0 = true ∧ containsD "rpm" d0 = false ∧
               containsD "odcs" d0 = false) ∨
            (containsD "id" d0 = false ∧ containsD "rpm" d0 = true ∧
               containsD "odcs" d0 = false) ∨
            (containsD "id" d0 = false ∧ containsD "rpm" d0 = false ∧
               containsD "odcs" d0 = true)) :
    ∃ d, repositoryInit d0 = Except.ok d ∧
      lookupD "url" d = some (Val.dict []) ∧
      fetchR d targetDir = Except.error (PyErr.keyError "repository") := by
  have hxor : Bool.xor (Bool.xor (containsD "odcs" d0) (containsD "id" d0))
      (containsD "rpm" d0) = true := by
    rcases hone with ⟨h1, h2, h3⟩ | ⟨h1, h2, h3⟩ | ⟨h1, h2, h3⟩ <;>
      rw [h1, h2, h3] <;> rfl
  cases hfn0 : lookupD "filename" d0 with
  | none =>
    obtain ⟨d3, hinit, _hfn3, hurl3⟩ :=
      repositoryInit_noFile_noUrl d0 n hfn0 hname hurl hxor
    exact ⟨d3, hinit, hurl3, by simp [fetchR, hurl3, lookupD]⟩
  | some w =>
    obtain ⟨d3, hinit, hurl3⟩ :=
      repositoryInit_file_noUrl d0 w hfn0 hurl hxor
    exact ⟨d3, hinit, hurl3, by simp [fetchR, hurl3, lookupD]⟩

/-- An id-kind repository mapping for the claim C10 witness. -/
def c10Repo : Dict := [("name", Val.str "test"), ("id", Val.str "rhel-7")]

/-- Witness for claim C10 at a concrete input: the id-kind repository is
constructed with `url` defaulted to the empty mapping, and `fetch` fails
with `KeyError` on `repository`, not the repository-naming `CekitError`. -/
theorem claim_C10_witness :
    ∃ d, repositoryInit c10Repo = Except.ok d ∧
      lookupD "url" d = some (Val.dict []) ∧
      fetchR d "target" = Except.error (PyErr.keyError "repository") :=
  claim_C10_fetch_keyerror c10Repo "test" "target" rfl rfl
    (Or.inl ⟨rfl, rfl, rfl⟩)

/-- Truth of whether `Repository` construction succeeds on a mapping. -/
def initSucceeds (d : Dict) : Bool :=
  match repositoryInit d with
  | Except.ok _ => true
  | Except.error _ => false

/-- A mapping with three source kinds (`id`, `rpm`, `url`) set. -/
def threeKindRepo : Dict :=
  [("name", Val.str "test"), ("id", Val.str "rhel-7"),
   ("rpm", Val.str "epel.rpm"),
   ("url", Val.dict [("repository", Val.str "http://x")])]

/-- A mapping with two source kinds (`id`, `rpm`) set. -/
def twoKindRepo : Dict :=
  [("name", Val.str "test"), ("id", Val.str "a"), ("rpm", Val.str "b")]

/-- A mapping with no source kind set. -/
def zeroKindRepo : Dict := [("name", Val.str "test")]

/-- Claim C1 (code bug): the source-kind validation of packages.py lines
113-119 is a chained boolean XOR, which is true for any odd number of the
four fields — so a mapping with three source kinds set (`threeKindRepo`:
`id`, `rpm` and `url`) is accepted by `Repository` construction, although
the accompanying error message documents the intent "you can use only one
of ['id', 'odcs', 'rpm', 'url']".  Zero and two set fields are rejected,
as the claim states; three are not. -/
theorem claim_C1_xor_bug :
    initSucceeds threeKindRepo = true ∧
    containsD "id" threeKindRepo = true ∧
    containsD "rpm" threeKindRepo = true ∧
    containsD "url" threeKindRepo = true ∧
    initSucceeds zeroKindRepo = false ∧
    initSucceeds twoKindRepo = false := by
  refine ⟨rfl, rfl, rfl, rfl, rfl, rfl⟩
